import Mathlib

/-!
# Verification of the screen recorder's core (`src/screen_recorder.py`)

A shallow embedding of the program's pure core: the alpha compositor
`overlay_image_alpha`, the codec selector `get_codec`, the frame-pacing
computation of the recording loop, and the two setup checks of `main`
(cursor-sprite loading and monitor-index validation).

Conventions of the embedding:
* numpy images become total functions from row/column indices to channel
  values; a frame (`screen`) is height x width with 3 colour channels
  (BGR), a cursor sprite is height x width with 4 channels (BGR + alpha
  at channel index 3), each channel value a natural number (uint8 values
  are 0..255 in the program);
* in-place mutation of the frame becomes returning the updated frame;
* numpy's float64 arithmetic in the blend is modelled twice: exactly
  over the rationals (`blendChannel`, inside `overlay_image_alpha`) — an
  idealisation that is bit-exact at the alpha values 0 and 255, where
  the theorems below rely on it — and bit-faithfully (`fl` is IEEE-754
  binary64 round-to-nearest-even rounding; `blendChannel64`, inside
  `overlay_image_alpha64`); `astype(np.uint8)` (truncation towards zero
  of a non-negative value) becomes `Int.toNat` of the floor in both;
* Python integers are `Int`, sizes are `Nat`.
-/

namespace ScreenRecorder

/-- A captured frame: a dense height x width buffer with 3 colour
channels (BGR).  `pix i j c` is the value of channel `c` of the pixel in
row `i`, column `j`. -/
@[ext]
structure Frame where
  h : Nat
  w : Nat
  pix : Nat → Nat → Fin 3 → Nat

/-- The cursor sprite: a dense height x width buffer with 4 channels
(BGR + alpha); channel `3` is the alpha channel. -/
@[ext]
structure Sprite where
  h : Nat
  w : Nat
  pix : Nat → Nat → Fin 4 → Nat

/-- One channel of the blend at one pixel, from line 122 and line 127 of
the source: `alpha_mask = cursor_roi[..., 3] / 255.0` and
`blended = (1.0 - alpha_mask) * screen_roi + alpha_mask * cursor_rgb`,
followed by `.astype(np.uint8)` (line 130), which truncates the
non-negative float towards zero.  The float64 divisions, products and
sums are idealised here as exact rational arithmetic; that idealisation
is bit-exact at alpha 0 and alpha 255 (the only alpha values the
theorems below evaluate it at), but not at every alpha —
`blendChannel64` is the rounding-faithful version, and the two differ
(see `blend_formula_cex`). -/
def blendChannel (bg fg a : Nat) : Nat :=
  (⌊(1 - (a : ℚ) / 255) * (bg : ℚ) + ((a : ℚ) / 255) * (fg : ℚ)⌋).toNat

/-- The integer nearest to `s`, ties to the even integer — the rounding
of IEEE-754 round-to-nearest-even at integer granularity. -/
def roundHalfEven (s : ℚ) : Int :=
  let f := ⌊s⌋
  if s - f < 1 / 2 then f
  else if 1 / 2 < s - f then f + 1
  else if f % 2 = 0 then f else f + 1

/-- A positive rational rounded to the nearest IEEE-754 binary64 value
(53 significant bits, round to nearest, ties to even): the significand
is the nearest integer to `q / 2 ^ e` for the scale `e` that puts it in
`[2^52, 2^53)`.  Exponent overflow and subnormals are not modelled —
every value the blend produces from uint8 inputs lies far inside the
normal range. -/
def flPos (q : ℚ) : ℚ :=
  let e : Int := Int.log 2 q - 52
  (roundHalfEven (q / 2 ^ e) : ℚ) * 2 ^ e

/-- The IEEE-754 binary64 rounding function for the normal range:
rounds an exact rational to the float64 value numpy would hold. -/
def fl (q : ℚ) : ℚ :=
  if q = 0 then 0 else if q < 0 then -flPos (-q) else flPos q

/-- One channel of the blend at one pixel with every float64 operation
of lines 122 and 127 correctly rounded, in numpy's evaluation order:
`alpha = fl(a / 255)` (uint8 to float64 is exact, the division rounds),
`1.0 - alpha` rounds, each product with the exactly-converted uint8
operand rounds, the sum rounds, and `.astype(np.uint8)` (line 130)
truncates towards zero. -/
def blendChannel64 (bg fg a : Nat) : Nat :=
  let alpha := fl ((a : ℚ) / 255)
  let s1 := fl (1 - alpha)
  let p1 := fl (s1 * (bg : ℚ))
  let p2 := fl (alpha * (fg : ℚ))
  (⌊fl (p1 + p2)⌋).toNat

/-- `overlay_image_alpha(screen, cursor, x, y)` from the source
(lines 74-134): clip the cursor rectangle against the screen, return the
screen unchanged when the clipped box is empty, otherwise blend the
matching sprite sub-region over the clipped destination rectangle.  The
Python function mutates `screen` in place; here the updated frame is
returned. -/
def overlay_image_alpha (screen : Frame) (cursor : Sprite) (x y : Int) : Frame :=
  let screen_h : Int := screen.h
  let screen_w : Int := screen.w
  let cursor_h : Int := cursor.h
  let cursor_w : Int := cursor.w
  let cur_box_x1 := max 0 x
  let cur_box_y1 := max 0 y
  let cur_box_x2 := min screen_w (x + cursor_w)
  let cur_box_y2 := min screen_h (y + cursor_h)
  let cur_box_w := cur_box_x2 - cur_box_x1
  let cur_box_h := cur_box_y2 - cur_box_y1
  if cur_box_w ≤ 0 ∨ cur_box_h ≤ 0 then screen
  else
    let cur_img_x1 := max 0 (-x)
    let cur_img_y1 := max 0 (-y)
    { screen with
      pix := fun i j c =>
        if cur_box_y1 ≤ (i : Int) ∧ (i : Int) < cur_box_y2 ∧
           cur_box_x1 ≤ (j : Int) ∧ (j : Int) < cur_box_x2 then
          blendChannel (screen.pix i j c)
            (cursor.pix ((i : Int) - cur_box_y1 + cur_img_y1).toNat
              ((j : Int) - cur_box_x1 + cur_img_x1).toNat c.castSucc)
            (cursor.pix ((i : Int) - cur_box_y1 + cur_img_y1).toNat
              ((j : Int) - cur_box_x1 + cur_img_x1).toNat 3)
        else screen.pix i j c }

/-- The same function with both buffers threaded through explicitly, as
the Python call mutates arrays through references: the only store in the
body (line 130) writes into `screen`, so the cursor component passes
through untouched. -/
def overlay_image_alpha_state (screen : Frame) (cursor : Sprite) (x y : Int) :
    Frame × Sprite :=
  (overlay_image_alpha screen cursor x y, cursor)

/-- `overlay_image_alpha` again (the same lines 74-134, with identical
clipping), but with the blend arithmetic performed by the
rounding-faithful `blendChannel64` instead of the rational
idealisation: the bit-accurate embedding of the source function. -/
def overlay_image_alpha64 (screen : Frame) (cursor : Sprite) (x y : Int) : Frame :=
  let screen_h : Int := screen.h
  let screen_w : Int := screen.w
  let cursor_h : Int := cursor.h
  let cursor_w : Int := cursor.w
  let cur_box_x1 := max 0 x
  let cur_box_y1 := max 0 y
  let cur_box_x2 := min screen_w (x + cursor_w)
  let cur_box_y2 := min screen_h (y + cursor_h)
  let cur_box_w := cur_box_x2 - cur_box_x1
  let cur_box_h := cur_box_y2 - cur_box_y1
  if cur_box_w ≤ 0 ∨ cur_box_h ≤ 0 then screen
  else
    let cur_img_x1 := max 0 (-x)
    let cur_img_y1 := max 0 (-y)
    { screen with
      pix := fun i j c =>
        if cur_box_y1 ≤ (i : Int) ∧ (i : Int) < cur_box_y2 ∧
           cur_box_x1 ≤ (j : Int) ∧ (j : Int) < cur_box_x2 then
          blendChannel64 (screen.pix i j c)
            (cursor.pix ((i : Int) - cur_box_y1 + cur_img_y1).toNat
              ((j : Int) - cur_box_x1 + cur_img_x1).toNat c.castSucc)
            (cursor.pix ((i : Int) - cur_box_y1 + cur_img_y1).toNat
              ((j : Int) - cur_box_x1 + cur_img_x1).toNat 3)
        else screen.pix i j c }

/-! ## Pointwise characterisation of the overlay -/

/-- The clipped destination box is nonempty exactly when some pixel
satisfies the membership test; the early return (line 103) therefore
changes nothing that the pointwise description below does not already
say. -/
theorem overlay_pix (screen : Frame) (cursor : Sprite) (x y : Int)
    (i j : Nat) (c : Fin 3) :
    (overlay_image_alpha screen cursor x y).pix i j c =
      if max 0 y ≤ (i : Int) ∧ (i : Int) < min (screen.h : Int) (y + cursor.h) ∧
         max 0 x ≤ (j : Int) ∧ (j : Int) < min (screen.w : Int) (x + cursor.w) then
        blendChannel (screen.pix i j c)
          (cursor.pix ((i : Int) - max 0 y + max 0 (-y)).toNat
            ((j : Int) - max 0 x + max 0 (-x)).toNat c.castSucc)
          (cursor.pix ((i : Int) - max 0 y + max 0 (-y)).toNat
            ((j : Int) - max 0 x + max 0 (-x)).toNat 3)
      else screen.pix i j c := by
  unfold overlay_image_alpha
  by_cases hempty :
      min (screen.w : Int) (x + cursor.w) - max 0 x ≤ 0 ∨
      min (screen.h : Int) (y + cursor.h) - max 0 y ≤ 0
  · rw [if_pos hempty]
    have : ¬ (max 0 y ≤ (i : Int) ∧ (i : Int) < min (screen.h : Int) (y + cursor.h) ∧
        max 0 x ≤ (j : Int) ∧ (j : Int) < min (screen.w : Int) (x + cursor.w)) := by
      rintro ⟨h1, h2, h3, h4⟩
      rcases hempty with h | h <;> omega
    rw [if_neg this]
  · rw [if_neg hempty]

/-- The pointwise description of `overlay_image_alpha64`, identical in
shape to `overlay_pix`. -/
theorem overlay_pix64 (screen : Frame) (cursor : Sprite) (x y : Int)
    (i j : Nat) (c : Fin 3) :
    (overlay_image_alpha64 screen cursor x y).pix i j c =
      if max 0 y ≤ (i : Int) ∧ (i : Int) < min (screen.h : Int) (y + cursor.h) ∧
         max 0 x ≤ (j : Int) ∧ (j : Int) < min (screen.w : Int) (x + cursor.w) then
        blendChannel64 (screen.pix i j c)
          (cursor.pix ((i : Int) - max 0 y + max 0 (-y)).toNat
            ((j : Int) - max 0 x + max 0 (-x)).toNat c.castSucc)
          (cursor.pix ((i : Int) - max 0 y + max 0 (-y)).toNat
            ((j : Int) - max 0 x + max 0 (-x)).toNat 3)
      else screen.pix i j c := by
  unfold overlay_image_alpha64
  by_cases hempty :
      min (screen.w : Int) (x + cursor.w) - max 0 x ≤ 0 ∨
      min (screen.h : Int) (y + cursor.h) - max 0 y ≤ 0
  · rw [if_pos hempty]
    have : ¬ (max 0 y ≤ (i : Int) ∧ (i : Int) < min (screen.h : Int) (y + cursor.h) ∧
        max 0 x ≤ (j : Int) ∧ (j : Int) < min (screen.w : Int) (x + cursor.w)) := by
      rintro ⟨h1, h2, h3, h4⟩
      rcases hempty with h | h <;> omega
    rw [if_neg this]
  · rw [if_neg hempty]

/-- `Int.log 2` evaluated by exhibiting the bracketing powers of two. -/
theorem int_log_eval (q : ℚ) (e : Int) (h0 : 0 < q)
    (h1 : (2 : ℚ) ^ e ≤ q) (h2 : q < (2 : ℚ) ^ (e + 1)) :
    Int.log 2 q = e := by
  have hb : 1 < (2 : ℕ) := by norm_num
  have hc : ((2 : ℕ) : ℚ) = (2 : ℚ) := by norm_num
  have hle : e ≤ Int.log 2 q := (Int.zpow_le_iff_le_log hb h0).mp (by rw [hc]; exact h1)
  have hlt : Int.log 2 q < e + 1 := (Int.lt_zpow_iff_log_lt hb h0).mp (by rw [hc]; exact h2)
  omega

/-- `roundHalfEven` evaluated when the fractional part is below one
half. -/
theorem roundHalfEven_of_lt (s : ℚ) (f : Int) (hf : ⌊s⌋ = f)
    (h : s - f < 1 / 2) : roundHalfEven s = f := by
  unfold roundHalfEven
  rw [hf, if_pos h]

/-- `fl` evaluated at a positive rational by exhibiting its exponent
bracket and rounded significand. -/
theorem fl_eval (q : ℚ) (e m : Int) (h0 : 0 < q)
    (h1 : (2 : ℚ) ^ e ≤ q) (h2 : q < (2 : ℚ) ^ (e + 1))
    (hm : roundHalfEven (q / 2 ^ (e - 52)) = m) :
    fl q = (m : ℚ) * 2 ^ (e - 52) := by
  unfold fl
  rw [if_neg h0.ne', if_neg (not_lt.mpr h0.le)]
  unfold flPos
  rw [int_log_eval q e h0 h1 h2]
  show (roundHalfEven (q / 2 ^ (e - 52)) : ℚ) * 2 ^ (e - 52) = (m : ℚ) * 2 ^ (e - 52)
  rw [hm]

/-- The float64 blend at alpha 5, background 3, foreground 3, one
rounding step at a time: `5/255` rounds to
`5651576002974740 * 2^-58`, the complement to
`8830587504648031 * 2^-53`, the two products to `6622940628486023 * 2^-51`
and `8477364004462110 * 2^-57`, and their sum —  exactly 3 in real
arithmetic — rounds down to `6755399441055743 * 2^-51 < 3`, which
truncates to 2. -/
theorem blendChannel64_cex_eval : blendChannel64 3 3 5 = 2 := by
  have ha : fl ((5 : ℚ) / 255) = (5651576002974740 : ℚ) * 2 ^ ((-6 : Int) - 52) :=
    fl_eval _ (-6) _ (by norm_num) (by norm_num) (by norm_num)
      (roundHalfEven_of_lt _ _ (by norm_num) (by norm_num))
  have hs1 : fl (1 - (5651576002974740 : ℚ) * 2 ^ ((-6 : Int) - 52)) =
      (8830587504648031 : ℚ) * 2 ^ ((-1 : Int) - 52) :=
    fl_eval _ (-1) _ (by norm_num) (by norm_num) (by norm_num)
      (roundHalfEven_of_lt _ _ (by norm_num) (by norm_num))
  have hp1 : fl ((8830587504648031 : ℚ) * 2 ^ ((-1 : Int) - 52) * (3 : ℚ)) =
      (6622940628486023 : ℚ) * 2 ^ ((1 : Int) - 52) :=
    fl_eval _ 1 _ (by norm_num) (by norm_num) (by norm_num)
      (roundHalfEven_of_lt _ _ (by norm_num) (by norm_num))
  have hp2 : fl ((5651576002974740 : ℚ) * 2 ^ ((-6 : Int) - 52) * (3 : ℚ)) =
      (8477364004462110 : ℚ) * 2 ^ ((-5 : Int) - 52) :=
    fl_eval _ (-5) _ (by norm_num) (by norm_num) (by norm_num)
      (roundHalfEven_of_lt _ _ (by norm_num) (by norm_num))
  have hs : fl ((6622940628486023 : ℚ) * 2 ^ ((1 : Int) - 52) +
      (8477364004462110 : ℚ) * 2 ^ ((-5 : Int) - 52)) =
      (6755399441055743 : ℚ) * 2 ^ ((1 : Int) - 52) :=
    fl_eval _ 1 _ (by norm_num) (by norm_num) (by norm_num)
      (roundHalfEven_of_lt _ _ (by norm_num) (by norm_num))
  show (⌊fl (fl (fl (1 - fl ((5 : ℚ) / 255)) * (3 : ℚ)) +
      fl (fl ((5 : ℚ) / 255) * (3 : ℚ)))⌋).toNat = 2
  rw [ha, hs1, hp1, hp2, hs]
  norm_num
  decide

/-- The overlay never changes the frame's dimensions. -/
theorem overlay_dims (screen : Frame) (cursor : Sprite) (x y : Int) :
    (overlay_image_alpha screen cursor x y).h = screen.h ∧
    (overlay_image_alpha screen cursor x y).w = screen.w := by
  unfold overlay_image_alpha
  by_cases hempty :
      min (screen.w : Int) (x + cursor.w) - max 0 x ≤ 0 ∨
      min (screen.h : Int) (y + cursor.h) - max 0 y ≤ 0
  · rw [if_pos hempty]
    exact ⟨rfl, rfl⟩
  · rw [if_neg hempty]
    exact ⟨rfl, rfl⟩

/-- A zero alpha value blends to the background value unchanged. -/
theorem blendChannel_zero (bg fg : Nat) : blendChannel bg fg 0 = bg := by
  unfold blendChannel
  norm_num

/-- A full (255) alpha value blends to the foreground value exactly. -/
theorem blendChannel_full (bg fg : Nat) : blendChannel bg fg 255 = fg := by
  unfold blendChannel
  norm_num

/-! ## Claim theorems about the compositor -/

/-- C2: for every frame, sprite and integer position, the overlay is a
total function (the embedding returns a frame for all inputs, as the
Python function never raises: clipping keeps every slice in bounds and
the `try` block catches the rest), and whenever the clipped overlap
rectangle has zero area — in particular at every fully off-frame
position — the frame comes back bit-identical. -/
theorem overlay_offscreen_noop (screen : Frame) (cursor : Sprite) (x y : Int)
    (h : min (screen.w : Int) (x + cursor.w) - max 0 x ≤ 0 ∨
         min (screen.h : Int) (y + cursor.h) - max 0 y ≤ 0 ∨
         x ≤ -(cursor.w : Int) ∨ (screen.w : Int) ≤ x ∨
         y ≤ -(cursor.h : Int) ∨ (screen.h : Int) ≤ y) :
    overlay_image_alpha screen cursor x y = screen := by
  have hzero : min (screen.w : Int) (x + cursor.w) - max 0 x ≤ 0 ∨
      min (screen.h : Int) (y + cursor.h) - max 0 y ≤ 0 := by
    rcases h with h | h | h | h | h | h
    · exact Or.inl h
    · exact Or.inr h
    · left; omega
    · left; omega
    · right; omega
    · right; omega
  unfold overlay_image_alpha
  rw [if_pos hzero]

/-- A concrete frame used by the witnesses: 4 x 4, arbitrary contents. -/
def wFrame : Frame := ⟨4, 4, fun i j c => 10 * i + 3 * j + c⟩

/-- A concrete sprite used by the witnesses: 2 x 2, alpha 128. -/
def wSprite : Sprite := ⟨2, 2, fun i j c => if c = 3 then 128 else 20 * i + 5 * j + c⟩

/-- Witness for C2: a fully off-frame position (x = 200 on a 4-wide
frame) leaves the concrete frame unchanged. -/
theorem overlay_offscreen_noop_witness :
    overlay_image_alpha wFrame wSprite 200 1 = wFrame :=
  overlay_offscreen_noop wFrame wSprite 200 1 (by decide)

/-- C7: blending a sprite whose alpha channel is zero everywhere leaves
the frame unchanged, for every position. -/
theorem blend_transparent_identity (screen : Frame) (cursor : Sprite) (x y : Int)
    (ha : ∀ i j, cursor.pix i j 3 = 0) :
    overlay_image_alpha screen cursor x y = screen := by
  have hd := overlay_dims screen cursor x y
  apply Frame.ext hd.1 hd.2
  funext i j c
  rw [overlay_pix]
  split
  · rw [ha, blendChannel_zero]
  · rfl

/-- A concrete 100 x 100 frame with arbitrary contents. -/
def frame100 : Frame := ⟨100, 100, fun i j c => (i + j + c) % 256⟩

/-- A concrete 32 x 32 fully opaque red sprite (BGR: blue 0, green 0,
red 255, alpha 255). -/
def redSprite : Sprite := ⟨32, 32, fun _ _ c => if c = 2 ∨ c = 3 then 255 else 0⟩

/-- A concrete fully-transparent sprite. -/
def clearSprite : Sprite := ⟨2, 2, fun i j c => if c = 3 then 0 else 20 * i + 5 * j + c⟩

/-- Witness for C7: the concrete transparent sprite changes nothing at a
position straddling the frame's corner. -/
theorem blend_transparent_identity_witness :
    overlay_image_alpha wFrame clearSprite (-1) 3 = wFrame :=
  blend_transparent_identity wFrame clearSprite (-1) 3 (fun _ _ => rfl)

/-- A one-pixel frame with value 3 in every channel. -/
def cexFrame : Frame := ⟨1, 1, fun _ _ _ => 3⟩

/-- A one-pixel sprite with colour 3 in every channel and alpha 5. -/
def cexSprite : Sprite := ⟨1, 1, fun _ _ c => if c = 3 then 5 else 3⟩

/-- C1 counterexample: at alpha 5 over background 3 with foreground 3
the program's float64 blend writes 2 — the double nearest to
`(1 - 5/255)*3 + (5/255)*3` after the four intermediate roundings lies
just below 3, and `astype(np.uint8)` truncates — while the claim's
formula `(1 - a)*bg + a*fg` truncated gives exactly 3.  So the covered
pixel is not set to the claimed value. -/
theorem blend_formula_cex :
    (overlay_image_alpha64 cexFrame cexSprite 0 0).pix 0 0 0 = 2 ∧
    (⌊(1 - (cexSprite.pix 0 0 3 : ℚ) / 255) * (cexFrame.pix 0 0 0 : ℚ) +
        ((cexSprite.pix 0 0 3 : ℚ) / 255) * (cexSprite.pix 0 0 0 : ℚ)⌋).toNat = 3 ∧
    (overlay_image_alpha64 cexFrame cexSprite 0 0).pix 0 0 0 ≠
      (⌊(1 - (cexSprite.pix 0 0 3 : ℚ) / 255) * (cexFrame.pix 0 0 0 : ℚ) +
          ((cexSprite.pix 0 0 3 : ℚ) / 255) * (cexSprite.pix 0 0 0 : ℚ)⌋).toNat := by
  have h1 : (overlay_image_alpha64 cexFrame cexSprite 0 0).pix 0 0 0 = 2 := by
    rw [overlay_pix64, if_pos (by decide)]
    show blendChannel64 3 3 5 = 2
    exact blendChannel64_cex_eval
  have h2 : (⌊(1 - (cexSprite.pix 0 0 3 : ℚ) / 255) * (cexFrame.pix 0 0 0 : ℚ) +
      ((cexSprite.pix 0 0 3 : ℚ) / 255) * (cexSprite.pix 0 0 0 : ℚ)⌋).toNat = 3 := by
    show (⌊(1 - (5 : ℚ) / 255) * 3 + ((5 : ℚ) / 255) * 3⌋).toNat = 3
    norm_num
    decide
  exact ⟨h1, h2, by rw [h1, h2]; decide⟩

/-- C1 amended: at a position whose sprite rectangle lies fully inside
the frame, every covered pixel becomes, per channel, the truncation of
the float64 evaluation of `(1 - a) * frame_pixel + a * sprite_color`
with `a = alpha / 255` — each division, subtraction, product and sum
correctly rounded to binary64 (`fl`), which can land one below the
exact real value — and every pixel outside the rectangle is
unchanged. -/
theorem blend_fully_inside64 (screen : Frame) (cursor : Sprite) (x y : Int)
    (hx : 0 ≤ x) (hy : 0 ≤ y)
    (hxw : x + cursor.w ≤ screen.w) (hyh : y + cursor.h ≤ screen.h)
    (i j : Nat) (c : Fin 3) :
    (overlay_image_alpha64 screen cursor x y).pix i j c =
      if y ≤ (i : Int) ∧ (i : Int) < y + cursor.h ∧
         x ≤ (j : Int) ∧ (j : Int) < x + cursor.w then
        (⌊fl (fl (fl (1 -
              fl ((cursor.pix ((i : Int) - y).toNat ((j : Int) - x).toNat 3 : ℚ) / 255)) *
              (screen.pix i j c : ℚ)) +
            fl (fl ((cursor.pix ((i : Int) - y).toNat ((j : Int) - x).toNat 3 : ℚ) / 255) *
              (cursor.pix ((i : Int) - y).toNat ((j : Int) - x).toNat c.castSucc : ℚ)))⌋).toNat
      else screen.pix i j c := by
  rw [overlay_pix64, max_eq_right hy, max_eq_right hx,
    min_eq_right hyh, min_eq_right hxw,
    max_eq_left (by omega : -y ≤ (0 : Int)), max_eq_left (by omega : -x ≤ (0 : Int))]
  simp only [add_zero]
  rfl

/-- Witness for C1 (amended): the 2 x 2 alpha-128 sprite fully inside
at (1, 1) sets pixel (1, 2) channel 0 to the float64 blend of
background 16, foreground 5, alpha 128. -/
theorem blend_fully_inside64_witness :
    (overlay_image_alpha64 wFrame wSprite 1 1).pix 1 2 0 =
      (⌊fl (fl (fl (1 - fl ((128 : ℚ) / 255)) * (16 : ℚ)) +
          fl (fl ((128 : ℚ) / 255) * (5 : ℚ)))⌋).toNat := by
  have h := blend_fully_inside64 wFrame wSprite 1 1 (by decide) (by decide)
    (by decide) (by decide) 1 2 0
  rw [h, if_pos (by decide)]
  rfl

/-- C8: blending a sprite whose alpha channel is 255 everywhere writes
the sprite's own colour channels into every pixel of the clipped
destination rectangle — exact replacement, no blending residue — and
leaves every other pixel unchanged.  At a fully-on-frame position the
clipped rectangle is the whole sprite rectangle; the claim's concrete
scenario (32 x 32 opaque red sprite at (90, 90) on a 100 x 100 frame,
which clips to rows and columns [90, 100)) is checked in the witness. -/
theorem blend_opaque_replaces (screen : Frame) (cursor : Sprite) (x y : Int)
    (ha : ∀ i j, cursor.pix i j 3 = 255) (i j : Nat) (c : Fin 3) :
    (overlay_image_alpha screen cursor x y).pix i j c =
      if max 0 y ≤ (i : Int) ∧ (i : Int) < min (screen.h : Int) (y + cursor.h) ∧
         max 0 x ≤ (j : Int) ∧ (j : Int) < min (screen.w : Int) (x + cursor.w) then
        cursor.pix ((i : Int) - max 0 y + max 0 (-y)).toNat
          ((j : Int) - max 0 x + max 0 (-x)).toNat c.castSucc
      else screen.pix i j c := by
  rw [overlay_pix]
  split
  · rw [ha, blendChannel_full]
  · rfl

/-- Witness for C8: the opaque red sprite at (90, 90) on the 100 x 100
frame turns pixel (95, 97) red (channel 2 becomes 255, channel 0 becomes
0) and leaves pixel (10, 10) untouched. -/
theorem blend_opaque_replaces_witness :
    (overlay_image_alpha frame100 redSprite 90 90).pix 95 97 2 = 255 ∧
    (overlay_image_alpha frame100 redSprite 90 90).pix 95 97 0 = 0 ∧
    (overlay_image_alpha frame100 redSprite 90 90).pix 10 10 0 =
      frame100.pix 10 10 0 := by
  refine ⟨?_, ?_, ?_⟩
  · have h := blend_opaque_replaces frame100 redSprite 90 90 (fun _ _ => rfl) 95 97 2
    rw [h]
    norm_num [frame100, redSprite]
    decide
  · have h := blend_opaque_replaces frame100 redSprite 90 90 (fun _ _ => rfl) 95 97 0
    rw [h]
    norm_num [frame100, redSprite]
    decide
  · have h := blend_opaque_replaces frame100 redSprite 90 90 (fun _ _ => rfl) 10 10 0
    rw [h]
    norm_num [frame100, redSprite]

/-- C3: the overlay touches only the clipped destination rectangle
`[max(0,x), min(w, x+sw)) x [max(0,y), min(h, y+sh))`, and on that
rectangle reads the sprite sub-region offset by `max(0,-x), max(0,-y)`.
The claim's concrete instance — a 32 x 32 sprite at (-20, 50) affecting
only columns [0, 12) and rows [50, 82) through sprite columns
[20, 32) — is checked in the witness. -/
theorem blend_clipped_rectangle (screen : Frame) (cursor : Sprite) (x y : Int)
    (i j : Nat) (c : Fin 3) :
    ((overlay_image_alpha screen cursor x y).pix i j c ≠ screen.pix i j c →
      max 0 y ≤ (i : Int) ∧ (i : Int) < min (screen.h : Int) (y + cursor.h) ∧
      max 0 x ≤ (j : Int) ∧ (j : Int) < min (screen.w : Int) (x + cursor.w)) ∧
    (max 0 y ≤ (i : Int) → (i : Int) < min (screen.h : Int) (y + cursor.h) →
     max 0 x ≤ (j : Int) → (j : Int) < min (screen.w : Int) (x + cursor.w) →
      (overlay_image_alpha screen cursor x y).pix i j c =
        blendChannel (screen.pix i j c)
          (cursor.pix ((i : Int) - max 0 y + max 0 (-y)).toNat
            ((j : Int) - max 0 x + max 0 (-x)).toNat c.castSucc)
          (cursor.pix ((i : Int) - max 0 y + max 0 (-y)).toNat
            ((j : Int) - max 0 x + max 0 (-x)).toNat 3)) := by
  constructor
  · intro hne
    by_contra hnot
    exact hne (by rw [overlay_pix, if_neg hnot])
  · intro h1 h2 h3 h4
    rw [overlay_pix, if_pos ⟨h1, h2, h3, h4⟩]

/-- Witness for C3: at (-20, 50) the 32 x 32 sprite blends frame pixel
(55, 5) from sprite pixel (5, 25), and frame pixel (55, 20) — outside
the clipped columns [0, 12) — is unchanged. -/
theorem blend_clipped_rectangle_witness :
    (overlay_image_alpha frame100 redSprite (-20) 50).pix 55 5 1 =
      blendChannel (frame100.pix 55 5 1) (redSprite.pix 5 25 1)
        (redSprite.pix 5 25 3) ∧
    (overlay_image_alpha frame100 redSprite (-20) 50).pix 55 20 1 =
      frame100.pix 55 20 1 := by
  constructor
  · have h := (blend_clipped_rectangle frame100 redSprite (-20) 50 55 5 1).2
      (by decide) (by decide) (by decide) (by decide)
    rw [h]
    norm_num [frame100, redSprite]
  · by_contra hne
    exact absurd ((blend_clipped_rectangle frame100 redSprite (-20) 50 55 20 1).1 hne)
      (by decide)

/-- C10: threading both buffers through the call, the cursor component
comes back untouched (the body's only store, line 130, writes into
`screen`), and the frame component is exactly the overlay's result. -/
theorem overlay_cursor_unchanged (screen : Frame) (cursor : Sprite) (x y : Int) :
    (overlay_image_alpha_state screen cursor x y).2 = cursor ∧
    (overlay_image_alpha_state screen cursor x y).1 =
      overlay_image_alpha screen cursor x y :=
  ⟨rfl, rfl⟩

/-! ## Codec selection (`get_codec`, lines 51-55) -/

/-- `cv2.VideoWriter_fourcc(*chars)`: the four character codes packed
little-endian into one integer. -/
def VideoWriter_fourcc (c1 c2 c3 c4 : Char) : Nat :=
  c1.toNat + 256 * c2.toNat + 65536 * c3.toNat + 16777216 * c4.toNat

/-- Python's `str.endswith`, over the string's characters. -/
def ends_with (s suffix : String) : Bool := suffix.data.isSuffixOf s.data

/-- `get_codec(filename)` (lines 51-55): `mp4v` for a `.mp4` filename,
`XVID` for anything else. -/
def get_codec (filename : String) : Nat :=
  if ends_with filename ".mp4" then VideoWriter_fourcc 'm' 'p' '4' 'v'
  else VideoWriter_fourcc 'X' 'V' 'I' 'D'

/-- C9: the codec is the mp4 identifier exactly when the filename ends
with ".mp4", and the single fallback identifier (XVID) for every other
filename. -/
theorem get_codec_by_extension (filename : String) :
    (get_codec filename = VideoWriter_fourcc 'm' 'p' '4' 'v' ↔
      ends_with filename ".mp4" = true) ∧
    (get_codec filename = VideoWriter_fourcc 'X' 'V' 'I' 'D' ↔
      ends_with filename ".mp4" = false) := by
  have hne : VideoWriter_fourcc 'm' 'p' '4' 'v' ≠ VideoWriter_fourcc 'X' 'V' 'I' 'D' := by
    decide
  unfold get_codec
  cases h : ends_with filename ".mp4" <;> simp [hne, hne.symm]

/-- Witness for C9: a filename not ending in ".mp4" selects the XVID
fallback identifier. -/
theorem get_codec_by_extension_witness :
    get_codec "clip.avi" = VideoWriter_fourcc 'X' 'V' 'I' 'D' :=
  (get_codec_by_extension "clip.avi").2.mpr (by decide)

/-! ## Frame pacing (lines 200-238) -/

/-- `frame_time = 1.0 / args.fps` (line 201): the target period. -/
def frame_time (fps : ℚ) : ℚ := 1 / fps

/-- `sleep_time = frame_time - elapsed_time` (line 236). -/
def sleep_time (ft elapsed : ℚ) : ℚ := ft - elapsed

/-- Lines 237-238: `time.sleep(sleep_time)` runs only when
`sleep_time > 0`; this is the sleep a cycle actually performs. -/
def performed_sleep (ft elapsed : ℚ) : ℚ :=
  if sleep_time ft elapsed > 0 then sleep_time ft elapsed else 0

/-- C6: each cycle sleeps exactly `max(0, period - elapsed)` with
`period = 1 / fps`; the sleep is never negative, and an overrunning
cycle (elapsed ≥ period) is followed immediately by the next one (sleep
zero) — no catch-up, no frame dropping. -/
theorem pacing_sleep_max (fps elapsed : ℚ) :
    performed_sleep (frame_time fps) elapsed = max 0 (1 / fps - elapsed) ∧
    0 ≤ performed_sleep (frame_time fps) elapsed ∧
    (frame_time fps ≤ elapsed → performed_sleep (frame_time fps) elapsed = 0) := by
  have hmax : performed_sleep (frame_time fps) elapsed = max 0 (1 / fps - elapsed) := by
    unfold performed_sleep sleep_time frame_time
    by_cases h : (1 : ℚ) / fps - elapsed > 0
    · rw [if_pos h, max_eq_right h.le]
    · rw [if_neg h, max_eq_left (not_lt.mp h)]
  refine ⟨hmax, ?_, ?_⟩
  · rw [hmax]
    exact le_max_left 0 _
  · intro hle
    rw [hmax, max_eq_left]
    unfold frame_time at hle
    linarith

/-- Witness for C6: at 30 fps a cycle that took 1/10 s (an overrun of
the 1/30 s period) is followed by a sleep of zero. -/
theorem pacing_sleep_max_witness :
    performed_sleep (frame_time 30) (1 / 10) = 0 :=
  (pacing_sleep_max 30 (1 / 10)).2.2 (by norm_num [frame_time])

/-! ## Cursor loading in `main` (lines 140-159) -/

/-- What `main`'s cursor-loading step decides before capture begins. -/
inductive CursorLoad where
  | withSprite
  | withoutSprite
  | exitOne
  deriving DecidableEq

/-- Cursor loading (lines 140-159): `os.path.exists(cursor_path)` guards
the read; inside the guard `cv2.imread` returning `None` raises
`FileNotFoundError`, which line 154 catches and turns into
`sys.exit(1)`; a missing path of any origin takes the `else` branch of
line 157 and records without a cursor.  `path_exists` abstracts the
filesystem, `imread_ok` whether the existing file decodes as an image.
Note the code never learns whether `args.cursor` was the argparse
default or explicitly supplied: these two booleans are its only
inputs. -/
def load_cursor (path_exists imread_ok : Bool) : CursorLoad :=
  if path_exists then
    if imread_ok then CursorLoad.withSprite else CursorLoad.exitOne
  else CursorLoad.withoutSprite

/-- C4 counterexample: a cursor path that was explicitly supplied on the
command line but does not exist (`path_exists = false`).  The claim
demands exit code 1 before capture; the code takes the `else` branch of
line 157 — which never consults whether the path was explicit — and
proceeds to record with no sprite overlay. -/
theorem load_cursor_explicit_missing_cex :
    load_cursor false true = CursorLoad.withoutSprite ∧
    load_cursor false true ≠ CursorLoad.exitOne := by decide

/-- C4 amended: whether the cursor path was explicitly supplied is
immaterial; every missing path (default or explicit) proceeds to record
with no sprite overlay, and only a path that exists but does not decode
as an image makes the program exit with code 1 before capture. -/
theorem load_cursor_spec : ∀ imread_ok : Bool,
    load_cursor false imread_ok = CursorLoad.withoutSprite ∧
    load_cursor true false = CursorLoad.exitOne ∧
    load_cursor true true = CursorLoad.withSprite := by decide

/-! ## Monitor-index validation in `main` (lines 164-168) -/

/-- What `main`'s monitor-index check decides. -/
inductive MonitorSelect where
  | accepted (idx : Nat)
  | fatalInvalid (lo hi : Int)
  deriving DecidableEq

/-- Monitor validation (lines 164-168): `sct.monitors` has
`num_entries = 1 + number of physical monitors` entries (entry 0 is the
all-monitors pseudo-region); the code rejects `args.monitor < 0` or
`args.monitor >= len(sct.monitors)` with an error naming the range
`1 .. len - 1` and `sys.exit(1)`; every other index — including 0 — is
accepted and used to index `sct.monitors`. -/
def monitor_check (monitor : Int) (num_entries : Nat) : MonitorSelect :=
  if monitor < 0 ∨ (num_entries : Int) ≤ monitor then
    MonitorSelect.fatalInvalid 1 ((num_entries : Int) - 1)
  else MonitorSelect.accepted monitor.toNat

/-- C5 counterexample: with two physical monitors (`sct.monitors` has 3
entries) the claim demands index 0 be rejected; the code's check
`monitor < 0 or monitor >= len(sct.monitors)` accepts 0 (selecting the
all-monitors region) and never prints the fatal range error. -/
theorem monitor_zero_accepted_cex :
    monitor_check 0 3 = MonitorSelect.accepted 0 ∧
    monitor_check 0 3 ≠ MonitorSelect.fatalInvalid 1 2 := by decide

/-- C5 amended: exactly the indices `0 .. len(sct.monitors) - 1`
(0 included, selecting the all-monitors region) are accepted; every
negative index and every index `≥ len(sct.monitors)` is a fatal error
whose message names the range `1 .. len(sct.monitors) - 1`. -/
theorem monitor_check_range (monitor : Int) (num_entries : Nat) :
    (monitor < 0 ∨ (num_entries : Int) ≤ monitor →
      monitor_check monitor num_entries =
        MonitorSelect.fatalInvalid 1 ((num_entries : Int) - 1)) ∧
    (0 ≤ monitor → monitor < (num_entries : Int) →
      monitor_check monitor num_entries = MonitorSelect.accepted monitor.toNat) := by
  constructor
  · intro h
    unfold monitor_check
    rw [if_pos h]
  · intro h1 h2
    unfold monitor_check
    rw [if_neg (by omega)]

/-- Witness for C5 (amended): index 5 with 3 entries is the fatal error
naming the range 1..2, and index 2 is accepted. -/
theorem monitor_check_range_witness :
    monitor_check 5 3 = MonitorSelect.fatalInvalid 1 2 ∧
    monitor_check 2 3 = MonitorSelect.accepted 2 := by
  have h1 := (monitor_check_range 5 3).1 (by decide)
  have h2 := (monitor_check_range 2 3).2 (by decide) (by decide)
  exact ⟨h1, h2⟩

end ScreenRecorder
